import Mathlib

/-!
# Persistent-IP claim reconciler

A shallow embedding of `go-controller/pkg/persistentips/allocator.go`
(`IPAMClaimReconciler.Reconcile`, `FindIPAMClaim`, `Sync`).

Conventions of the embedding:

* a Go pointer `*IPAMClaim` that the code tests against `nil` is an
  `Option IPAMClaim`; reading a field through an absent pointer is a `Panic`;
* a Go `error` is an `Option GoError` (`none` is the `nil` error);
* calls into the external collaborators (kube client, lister, allocator,
  releaser) are recorded, in order, in a `Trace`; what a collaborator answers
  may depend on everything that was called before, so each collaborator is a
  function of the trace so far;
* a `[]string` is a `List String`; a `nil` slice and an empty slice both
  have length 0 and are both the empty list;
* `klog` output is not modelled.
-/

namespace Persistentips

/-! ## Errors -/

/-- An operand of a `fmt.Errorf` verb: a string or a slice of strings. -/
inductive FmtArg where
  | str (s : String)
  | strs (l : List String)
  deriving DecidableEq, Repr

/-- Go `error` values. `New` is a value made by `errors.New` (identified by
its text), `Errorf` a `fmt.Errorf` without `%w`, `ErrorfW` a `fmt.Errorf`
whose `%w` operand is `wrapped`. The format string and the other operands are
kept as they stand in the source. -/
inductive GoError where
  | New (text : String)
  | Errorf (format : String) (args : List FmtArg)
  | ErrorfW (format : String) (args : List FmtArg) (wrapped : GoError)
  deriving DecidableEq, Repr

/-- The `Unwrap` method of an error: the `%w` operand, if any. -/
def GoError.Unwrap : GoError → Option GoError
  | .New _ => none
  | .Errorf _ _ => none
  | .ErrorfW _ _ w => some w

/-- Go `errors.Is`: `target` occurs in the chain of `err`. Go compares error
values by identity; here two errors are the same when they are built the same
way. -/
def GoError.Is : GoError → GoError → Bool
  | .New t, target => decide (GoError.New t = target)
  | .Errorf f a, target => decide (GoError.Errorf f a = target)
  | .ErrorfW f a w, target => decide (GoError.ErrorfW f a w = target) || GoError.Is w target

/-- Source: `ErrPersistentIPsNotAvailableOnNetwork`. -/
def ErrPersistentIPsNotAvailableOnNetwork : GoError :=
  GoError.New "ipam claims not supported on this network"

/-- A run-time panic of the Go program. -/
inductive Panic where
  | nilPointerDereference
  deriving DecidableEq, Repr

/-! ## Data model -/

/-- Go `net.IPNet`: an address and a mask, as byte lists. -/
structure IPNet where
  IP : List Nat
  Mask : List Nat
  deriving DecidableEq, Repr

/-- The `Spec` of an `IPAMClaim` (the field the code reads). -/
structure IPAMClaimSpec where
  Network : String
  deriving DecidableEq, Repr

/-- The `Status` of an `IPAMClaim`. -/
structure IPAMClaimStatus where
  IPs : List String
  deriving DecidableEq, Repr

/-- The `ipamclaimsapi.IPAMClaim` record, with the fields the code reads. -/
structure IPAMClaim where
  Namespace : String
  Name : String
  Spec : IPAMClaimSpec
  Status : IPAMClaimStatus
  deriving DecidableEq, Repr

/-- A call into an external collaborator. -/
inductive Call where
  | UpdateIPAMClaimIPs (claim : Option IPAMClaim)
  | ReleaseIPs (ips : List IPNet)
  | AllocateIPs (ips : List IPNet)
  | ListerGet (ns : String) (name : String)
  deriving DecidableEq, Repr

/-- The calls made so far, oldest first. -/
abbrev Trace := List Call

/-- Source: `IPReleaser`. -/
structure IPReleaser where
  ReleaseIPs : Trace → List IPNet → Option GoError

/-- Source: `IPAllocator`. -/
structure IPAllocator where
  AllocateIPs : Trace → List IPNet → Option GoError

/-- The method of `kube.InterfaceOVN` that the reconciler calls. -/
structure InterfaceOVN where
  UpdateIPAMClaimIPs : Trace → Option IPAMClaim → Option GoError

/-- The lister: `IPAMClaims(namespace).Get(name)`. -/
structure IPAMClaimLister where
  Get : Trace → String → String → Except GoError (Option IPAMClaim)

/-- The part of `util.NetInfo` that the reconciler consults. The interface is
declared in `pkg/util`, which is not among the sources at hand; its three
answers are taken as given: the network name, the topology type, and the
answer of `util.DoesNetworkRequireIPAM` for this network. -/
structure NetInfo where
  GetNetworkName : String
  TopologyType : String
  DoesNetworkRequireIPAM : Bool

/-- Modelled from the spec: the constant `ovnktypes.Layer3Topology` is declared
in `pkg/types`, which is not among the sources at hand. The spec calls it "a
specific excluded topology kind"; it is the name of the layer-3 topology. -/
def Layer3Topology : String := "layer3"

/-- Source: `IPAMClaimReconciler`. The lister may be `nil`. -/
structure IPAMClaimReconciler where
  kube : InterfaceOVN
  netInfo : NetInfo
  lister : Option IPAMClaimLister

/-- Source: `NewIPAMClaimReconciler`. -/
def NewIPAMClaimReconciler (kube : InterfaceOVN) (netConfig : NetInfo)
    (lister : Option IPAMClaimLister) : IPAMClaimReconciler :=
  { kube := kube, netInfo := netConfig, lister := lister }

/-! ## Reconcile -/

/-- The less function handed to `cmpopts.SortSlices`:
`func(a, b string) bool { return a < b }`. -/
def less (a b : String) : Bool := decide (a < b)

/-- The transformer of `cmpopts.SortSlices(less)`: a stable sort of the slice
by the less function (an element goes in front of the next one unless the next
one is less). -/
def SortSlices (lt : String → String → Bool) (l : List String) : List String :=
  l.insertionSort (fun a b => lt b a = false)

/-- `cmp.Equal(x, y, cmpopts.SortSlices(lt))` on two `[]string`: both slices
are sorted and then compared element by element; nothing is deduplicated. The
only values `Reconcile` passes are `nil` and non-empty slices, so the empty
list stands for `nil` here. -/
def cmpEqualSortSlices (lt : String → String → Bool) (x y : List String) : Bool :=
  decide (SortSlices lt x = SortSlices lt y)

/-- Source: `Reconcile`. The result is a panic, or the returned error together
with the trace of the calls made. -/
def Reconcile (icr : IPAMClaimReconciler) (oldIPAMClaim newIPAMClaim : Option IPAMClaim)
    (ipReleaser : IPReleaser) (tr : Trace) : Except Panic (Option GoError × Trace) :=
  let _ := ipReleaser
  let ipamClaim : Option IPAMClaim :=
    match newIPAMClaim with
    | some c => some c
    | none => oldIPAMClaim
  match ipamClaim with
  | none => .ok (none, tr)
  | some ipamClaim =>
    let mustUpdateIPAMClaim : Bool :=
      (match oldIPAMClaim with
        | none => true
        | some o => o.Status.IPs.length == 0) && newIPAMClaim.isSome
    if mustUpdateIPAMClaim then
      match icr.kube.UpdateIPAMClaimIPs tr newIPAMClaim with
      | some err =>
        match newIPAMClaim with
        | none => .error Panic.nilPointerDereference
        | some n =>
          .ok (some (GoError.ErrorfW
            "failed to update the allocation %q with allocations %q: %w"
            [FmtArg.str n.Name, FmtArg.strs n.Status.IPs] err),
            tr ++ [Call.UpdateIPAMClaimIPs newIPAMClaim])
      | none => .ok (none, tr ++ [Call.UpdateIPAMClaimIPs newIPAMClaim])
    else
      match oldIPAMClaim with
      | none => .error Panic.nilPointerDereference
      | some o =>
        let originalIPs : List String :=
          if o.Status.IPs.length > 0 then o.Status.IPs else []
        let newIPs : List String :=
          match newIPAMClaim with
          | none => []
          | some n => if n.Status.IPs.length > 0 then n.Status.IPs else []
        let areClaimsEqual := cmpEqualSortSlices less originalIPs newIPs
        if !areClaimsEqual then
          let ipamClaimKey := ipamClaim.Namespace ++ "/" ++ ipamClaim.Name
          .ok (some (GoError.Errorf
            "failed to update IPAMClaim %q - overwriting existing IPs %q with newer IPs %q"
            [FmtArg.str ipamClaimKey, FmtArg.strs originalIPs, FmtArg.strs newIPs]), tr)
        else
          .ok (none, tr)

/-! ## FindIPAMClaim -/

/-- Source: `FindIPAMClaim`. The result is the claim and the error returned,
together with the trace of the calls made. -/
def FindIPAMClaim (icr : IPAMClaimReconciler) (claimName : String) (ns : String)
    (tr : Trace) : (Option IPAMClaim × Option GoError) × Trace :=
  match icr.lister with
  | none => ((none, some ErrPersistentIPsNotAvailableOnNetwork), tr)
  | some lister =>
    if !icr.netInfo.DoesNetworkRequireIPAM ||
        icr.netInfo.TopologyType == Layer3Topology ||
        claimName == "" then
      ((none, some ErrPersistentIPsNotAvailableOnNetwork), tr)
    else
      match lister.Get tr ns claimName with
      | .error err =>
        ((none, some (GoError.ErrorfW "failed to get IPAMClaim %q: %w"
          [FmtArg.str claimName] err)), tr ++ [Call.ListerGet ns claimName])
      | .ok claim => ((claim, none), tr ++ [Call.ListerGet ns claimName])

/-! ## Sync -/

/-- Modelled from the spec: `util.ParseIPNets` is declared in `pkg/util`, which
is not among the sources at hand. The spec: "Parse each surviving claim's
committed-address strings into structured network addresses; a parse failure is
fatal ... and is reported immediately". The strings are parsed one by one, in
order, by the parser of a single address (a parameter), and the first failure
is the result. -/
def ParseIPNets (ParseIPNet : String → Except GoError IPNet) :
    List String → Except GoError (List IPNet)
  | [] => .ok []
  | s :: rest =>
    match ParseIPNet s with
    | .error err => .error err
    | .ok ipnet =>
      match ParseIPNets ParseIPNet rest with
      | .error err => .error err
      | .ok ipnets => .ok (ipnet :: ipnets)

/-- An element of the `[]interface{}` handed to `Sync`: a (non-nil)
`*IPAMClaim` of the informer cache, or a value of another type (named by its
type). -/
inductive Obj where
  | ipamClaim (c : IPAMClaim)
  | other (typeName : String)
  deriving DecidableEq, Repr

/-- The `for` loop of `Sync`, from the objects still to visit and the `ips`
accumulated so far: the error returned from inside the loop, or the final
`ips`. -/
def Sync.loop (ParseIPNet : String → Except GoError IPNet) (icr : IPAMClaimReconciler) :
    List Obj → List IPNet → Except GoError (List IPNet)
  | [], ips => .ok ips
  | Obj.other _ :: rest, ips => Sync.loop ParseIPNet icr rest ips
  | Obj.ipamClaim ipamClaim :: rest, ips =>
    if ipamClaim.Spec.Network != icr.netInfo.GetNetworkName then
      Sync.loop ParseIPNet icr rest ips
    else
      match ParseIPNets ParseIPNet ipamClaim.Status.IPs with
      | .error err =>
        .error (GoError.ErrorfW "failed at parsing IP when allocating persistent IPs: %w" [] err)
      | .ok ipnets => Sync.loop ParseIPNet icr rest (ips ++ ipnets)

/-- Source: `Sync`. The address parser behind `util.ParseIPNets` and the
predicate `ipam.IsErrAllocated` (declared in `pkg/allocator/ip`, not among the
sources at hand) are parameters. The result is the returned error together
with the trace of the calls made. -/
def Sync (ParseIPNet : String → Except GoError IPNet) (IsErrAllocated : GoError → Bool)
    (icr : IPAMClaimReconciler) (objs : List Obj) (ipAllocator : IPAllocator)
    (tr : Trace) : Option GoError × Trace :=
  match Sync.loop ParseIPNet icr objs [] with
  | .error err => (some err, tr)
  | .ok ips =>
    if ips.length > 0 then
      match ipAllocator.AllocateIPs tr ips with
      | some err =>
        if !IsErrAllocated err then
          (some (GoError.ErrorfW "failed allocating persistent ips: %w" [] err),
            tr ++ [Call.AllocateIPs ips])
        else (none, tr ++ [Call.AllocateIPs ips])
      | none => (none, tr ++ [Call.AllocateIPs ips])
    else (none, tr)

/-! ## Names used in the statements -/

/-- The error of the conflict branch of `Reconcile`, from the claim key and the
two address lists. -/
def conflictError (ipamClaimKey : String) (originalIPs newIPs : List String) : GoError :=
  GoError.Errorf
    "failed to update IPAMClaim %q - overwriting existing IPs %q with newer IPs %q"
    [FmtArg.str ipamClaimKey, FmtArg.strs originalIPs, FmtArg.strs newIPs]

/-- The error of the first-commit branch of `Reconcile` when the write fails
with `err`. -/
def updateError (name : String) (ips : List String) (err : GoError) : GoError :=
  GoError.ErrorfW "failed to update the allocation %q with allocations %q: %w"
    [FmtArg.str name, FmtArg.strs ips] err

/-- The claim `c` with its `Status.IPs` replaced by `ips`. -/
def withIPs (c : IPAMClaim) (ips : List String) : IPAMClaim :=
  { c with Status := { IPs := ips } }

/-- A kube client whose writes always succeed. -/
def kubeOk : InterfaceOVN := { UpdateIPAMClaimIPs := fun _ _ => none }

/-- A kube client whose writes always fail with `err`. -/
def kubeFail (err : GoError) : InterfaceOVN := { UpdateIPAMClaimIPs := fun _ _ => some err }

/-- A releaser that always succeeds. -/
def releaserOk : IPReleaser := { ReleaseIPs := fun _ _ => none }

/-- A network `net1` that requires IPAM, with a layer-2 topology. -/
def net1 : NetInfo :=
  { GetNetworkName := "net1", TopologyType := "layer2", DoesNetworkRequireIPAM := true }

/-- A reconciler for `net1` over `kube`, without a lister. -/
def icr1 (kube : InterfaceOVN) : IPAMClaimReconciler :=
  NewIPAMClaimReconciler kube net1 none

/-- The claim `ns1/pod-a` on `net1` with the given addresses. -/
def podA (ips : List String) : IPAMClaim :=
  { Namespace := "ns1", Name := "pod-a", Spec := { Network := "net1" }, Status := { IPs := ips } }

/-- Two calls of `Reconcile` in a row with the same arguments, the second one
starting from the trace the first one left: the two results. -/
def ReconcileTwice (icr : IPAMClaimReconciler) (oldIPAMClaim newIPAMClaim : Option IPAMClaim)
    (ipReleaser : IPReleaser) (tr : Trace) :
    Except Panic ((Option GoError × Trace) × (Option GoError × Trace)) :=
  match Reconcile icr oldIPAMClaim newIPAMClaim ipReleaser tr with
  | .error p => .error p
  | .ok r1 =>
    match Reconcile icr oldIPAMClaim newIPAMClaim ipReleaser r1.2 with
    | .error p => .error p
    | .ok r2 => .ok (r1, r2)

/-- An error of the kube client. -/
def errBoom : GoError := GoError.New "etcdserver: request timed out"

/-- A lister over a fixed store: `Get` finds the claim with the given
namespace and name, or fails with a not-found error. -/
def listerOf (store : List IPAMClaim) : IPAMClaimLister :=
  { Get := fun _ ns name =>
      match store.find? (fun c => c.Namespace == ns && c.Name == name) with
      | some c => .ok (some c)
      | none => .error (GoError.New "ipamclaim not found") }

/-- A reconciler for `net1` over `kubeOk` whose lister holds `store`. -/
def icrWith (store : List IPAMClaim) : IPAMClaimReconciler :=
  NewIPAMClaimReconciler kubeOk net1 (some (listerOf store))

/-- The claims of `objs` whose `Spec.Network` is the network name of the
reconciler, in input order. -/
def claimsOnNetwork (icr : IPAMClaimReconciler) (objs : List Obj) : List IPAMClaim :=
  objs.filterMap (fun obj =>
    match obj with
    | Obj.ipamClaim c => if c.Spec.Network = icr.netInfo.GetNetworkName then some c else none
    | Obj.other _ => none)

/-- The addresses of `strs` that parse, in order. -/
def parsedIPs (ParseIPNet : String → Except GoError IPNet) (strs : List String) : List IPNet :=
  strs.filterMap (fun s => (ParseIPNet s).toOption)

/-- The parsed addresses of the claims on the network of the reconciler,
concatenated in input order. -/
def addressesOnNetwork (ParseIPNet : String → Except GoError IPNet) (icr : IPAMClaimReconciler)
    (objs : List Obj) : List IPNet :=
  (claimsOnNetwork icr objs).flatMap (fun c => parsedIPs ParseIPNet c.Status.IPs)

/-- A parser that knows the three addresses of the scenarios. -/
def exampleParseIPNet (s : String) : Except GoError IPNet :=
  if s = "10.0.0.5/24" then .ok { IP := [10, 0, 0, 5], Mask := [255, 255, 255, 0] }
  else if s = "10.0.0.6/24" then .ok { IP := [10, 0, 0, 6], Mask := [255, 255, 255, 0] }
  else if s = "10.0.0.7/24" then .ok { IP := [10, 0, 0, 7], Mask := [255, 255, 255, 0] }
  else .error (GoError.New "invalid CIDR address")

/-- The "already allocated" error of the allocator in the examples. -/
def exampleErrAllocated : GoError := GoError.New "provided IP is already allocated"

/-- An `IsErrAllocated` for the examples: the error chain holds
`exampleErrAllocated`. -/
def exampleIsErrAllocated (err : GoError) : Bool := err.Is exampleErrAllocated

/-- An allocator that always succeeds. -/
def allocatorOk : IPAllocator := { AllocateIPs := fun _ _ => none }

/-- A claim `ns1/name` on `network` with the given addresses. -/
def claimOn (name network : String) (ips : List String) : IPAMClaim :=
  { Namespace := "ns1", Name := name, Spec := { Network := network }, Status := { IPs := ips } }

/-- The error of `Sync` when the allocator fails with `err`. -/
def allocationError (err : GoError) : GoError :=
  GoError.ErrorfW "failed allocating persistent ips: %w" [] err

/-- The error of `Sync` when an address fails to parse with `err`. -/
def parseError (err : GoError) : GoError :=
  GoError.ErrorfW "failed at parsing IP when allocating persistent IPs: %w" [] err

/-- An allocator that always answers `r`. -/
def allocatorAnswering (r : Option GoError) : IPAllocator := { AllocateIPs := fun _ _ => r }

/-- An error of the allocator other than "already allocated". -/
def exampleErrFull : GoError := GoError.New "range is full"

/-- The `*IPAMClaim` elements of `objs`, in input order. -/
def recognized (objs : List Obj) : List IPAMClaim :=
  objs.filterMap (fun obj =>
    match obj with
    | Obj.ipamClaim c => some c
    | Obj.other _ => none)

/-- The collection `objs` without the claims whose `Spec.Network` differs from
the network name of the reconciler. -/
def dropOtherNetworks (icr : IPAMClaimReconciler) (objs : List Obj) : List Obj :=
  objs.filter (fun obj =>
    match obj with
    | Obj.ipamClaim c => decide (c.Spec.Network = icr.netInfo.GetNetworkName)
    | Obj.other _ => true)

end Persistentips

/-!
# Egress firewall apply configuration

A shallow embedding of
`go-controller/pkg/crd/egressfirewall/v1/apis/applyconfiguration/egressfirewall/v1/egressfirewallspec.go`.
The element type `EgressFirewallRuleApplyConfiguration` is declared in another
file of that package; it is a type parameter here. The receiver `b` is a
present builder, and a call returns the state of the receiver after the call.
-/

namespace EgressFirewallV1

/-- Source: `EgressFirewallSpecApplyConfiguration`. -/
structure EgressFirewallSpecApplyConfiguration (Rule : Type) where
  Egress : List Rule

/-- Source: `EgressFirewallSpec`, the empty configuration. -/
def EgressFirewallSpec (Rule : Type) : EgressFirewallSpecApplyConfiguration Rule :=
  { Egress := [] }

/-- A panic of `WithEgress`: the value handed to `panic`, and the state the
receiver was left in. -/
structure Panicked (Rule : Type) where
  value : String
  receiver : EgressFirewallSpecApplyConfiguration Rule

/-- Source: `WithEgress`. The values are pointers, `none` being `nil`; they are
visited in order, each one is appended to `b.Egress`, and a `nil` value
panics. -/
def WithEgress {Rule : Type} (b : EgressFirewallSpecApplyConfiguration Rule) :
    List (Option Rule) → Except (Panicked Rule) (EgressFirewallSpecApplyConfiguration Rule)
  | [] => .ok b
  | none :: _ => .error { value := "nil value passed to WithEgress", receiver := b }
  | some v :: rest => WithEgress { Egress := b.Egress ++ [v] } rest

end EgressFirewallV1

namespace Persistentips

/-! ## The comparison of `Reconcile` -/

theorem less_eq_false_iff (a b : String) : less b a = false ↔ a ≤ b := by
  simp [less]

instance lessTotal : IsTotal String (fun a b => less b a = false) :=
  ⟨fun a b => by simp only [less_eq_false_iff]; exact le_total a b⟩

instance lessTrans : IsTrans String (fun a b => less b a = false) :=
  ⟨fun a b c => by simp only [less_eq_false_iff]; exact le_trans⟩

instance lessAntisymm : IsAntisymm String (fun a b => less b a = false) :=
  ⟨fun a b => by simp only [less_eq_false_iff]; exact le_antisymm⟩

/-- Sorting gives a permutation of the slice. -/
theorem SortSlices_perm (l : List String) : (SortSlices less l).Perm l :=
  List.perm_insertionSort _ l

/-- The comparison of `Reconcile` holds exactly of two slices that are
permutations of each other. -/
theorem cmpEqualSortSlices_iff_perm (x y : List String) :
    cmpEqualSortSlices less x y = true ↔ x.Perm y := by
  unfold cmpEqualSortSlices
  rw [decide_eq_true_iff]
  constructor
  · intro h
    exact ((SortSlices_perm x).symm.trans (h ▸ List.Perm.refl _)).trans (SortSlices_perm y)
  · intro h
    exact List.eq_of_perm_of_sorted
      (((SortSlices_perm x).trans h).trans (SortSlices_perm y).symm)
      (List.sorted_insertionSort _ x) (List.sorted_insertionSort _ y)

/-! ## Reconcile: the two branches -/

/-- The first-commit branch: `old` absent or without addresses, `new` present. -/
theorem Reconcile_firstCommit (icr : IPAMClaimReconciler) (old : Option IPAMClaim)
    (n : IPAMClaim) (rel : IPReleaser) (tr : Trace)
    (hold : ∀ o, old = some o → o.Status.IPs = []) :
    Reconcile icr old (some n) rel tr =
      match icr.kube.UpdateIPAMClaimIPs tr (some n) with
      | some err => .ok (some (updateError n.Name n.Status.IPs err),
          tr ++ [Call.UpdateIPAMClaimIPs (some n)])
      | none => .ok (none, tr ++ [Call.UpdateIPAMClaimIPs (some n)]) := by
  cases old with
  | none => simp only [Reconcile, updateError]; rfl
  | some o =>
    have h := hold o rfl
    simp only [Reconcile, updateError, h]; rfl

/-- The steady-state branch with `new` present: `old` has addresses. -/
theorem Reconcile_steady (icr : IPAMClaimReconciler) (o n : IPAMClaim)
    (rel : IPReleaser) (tr : Trace) (ho : o.Status.IPs ≠ []) :
    Reconcile icr (some o) (some n) rel tr =
      if o.Status.IPs.Perm n.Status.IPs then .ok (none, tr)
      else .ok (some (conflictError (n.Namespace ++ "/" ++ n.Name)
        o.Status.IPs n.Status.IPs), tr) := by
  have hlen : 0 < o.Status.IPs.length := List.length_pos.mpr ho
  have hlen' : ¬ o.Status.IPs.length = 0 := Nat.pos_iff_ne_zero.mp hlen
  by_cases hn : n.Status.IPs = []
  · have hp : ¬ o.Status.IPs.Perm n.Status.IPs := by
      rw [hn]; intro h; exact ho h.eq_nil
    have hc : cmpEqualSortSlices less o.Status.IPs [] = false := by
      rw [Bool.eq_false_iff]; intro h
      exact ho ((cmpEqualSortSlices_iff_perm _ _).mp h).eq_nil
    simp [Reconcile, conflictError, hlen, hlen', hn, hc, ho]
  · have hnlen : 0 < n.Status.IPs.length := List.length_pos.mpr hn
    by_cases hp : o.Status.IPs.Perm n.Status.IPs
    · have hc := (cmpEqualSortSlices_iff_perm _ _).mpr hp
      simp [Reconcile, hlen, hlen', hnlen, hc, hp]
    · have hc : cmpEqualSortSlices less o.Status.IPs n.Status.IPs = false := by
        rw [Bool.eq_false_iff]; intro h
        exact hp ((cmpEqualSortSlices_iff_perm _ _).mp h)
      simp [Reconcile, conflictError, hlen, hlen', hnlen, hc, hp]

/-- The steady-state branch with `new` absent. -/
theorem Reconcile_removed (icr : IPAMClaimReconciler) (o : IPAMClaim)
    (rel : IPReleaser) (tr : Trace) :
    Reconcile icr (some o) none rel tr =
      if o.Status.IPs = [] then .ok (none, tr)
      else .ok (some (conflictError (o.Namespace ++ "/" ++ o.Name) o.Status.IPs []), tr) := by
  by_cases ho : o.Status.IPs = []
  · simp [Reconcile, ho, cmpEqualSortSlices]
  · have hlen : 0 < o.Status.IPs.length := List.length_pos.mpr ho
    have hc : cmpEqualSortSlices less o.Status.IPs [] = false := by
      rw [Bool.eq_false_iff]; intro h
      exact ho ((cmpEqualSortSlices_iff_perm _ _).mp h).eq_nil
    simp [Reconcile, conflictError, hlen, hc, ho]

/-- Every call of `Reconcile` returns. Either the input is not a first commit,
and it makes no call and returns an error that does not depend on the trace;
or `new` is present, `old` is absent or without addresses, and it makes the one
call `UpdateIPAMClaimIPs new`. -/
theorem Reconcile_cases (icr : IPAMClaimReconciler) (old new : Option IPAMClaim)
    (rel : IPReleaser) :
    (¬ (new.isSome = true ∧ ∀ o, old = some o → o.Status.IPs = []) ∧
      ∃ e, ∀ tr, Reconcile icr old new rel tr = .ok (e, tr)) ∨
    (∃ n, new = some n ∧ (∀ o, old = some o → o.Status.IPs = []) ∧
      ∀ tr, ∃ e, Reconcile icr old new rel tr =
        .ok (e, tr ++ [Call.UpdateIPAMClaimIPs new])) := by
  cases new with
  | none =>
    left
    refine ⟨fun h => by simp at h, ?_⟩
    cases old with
    | none => exact ⟨none, fun tr => by simp [Reconcile]⟩
    | some o =>
      by_cases ho : o.Status.IPs = []
      · exact ⟨none, fun tr => by rw [Reconcile_removed, if_pos ho]⟩
      · exact ⟨_, fun tr => by rw [Reconcile_removed, if_neg ho]⟩
  | some n =>
    by_cases hold : ∀ o, old = some o → o.Status.IPs = []
    · right
      refine ⟨n, rfl, hold, fun tr => ?_⟩
      rw [Reconcile_firstCommit icr old n rel tr hold]
      cases icr.kube.UpdateIPAMClaimIPs tr (some n) with
      | none => exact ⟨none, rfl⟩
      | some err => exact ⟨_, rfl⟩
    · left
      refine ⟨fun h => hold h.2, ?_⟩
      have ⟨o, ho, hne⟩ : ∃ o, old = some o ∧ o.Status.IPs ≠ [] := by
        by_contra hcon
        exact hold (fun o ho => by
          by_contra hne
          exact hcon ⟨o, ho, hne⟩)
      subst ho
      by_cases hp : o.Status.IPs.Perm n.Status.IPs
      · exact ⟨none, fun tr => by rw [Reconcile_steady icr o n rel tr hne, if_pos hp]⟩
      · exact ⟨_, fun tr => by rw [Reconcile_steady icr o n rel tr hne, if_neg hp]⟩

/-! ## Sync: the loop -/

/-- When every string of `strs` parses, `ParseIPNets` returns the parsed
addresses in order. -/
theorem ParseIPNets_ok (P : String → Except GoError IPNet) (strs : List String)
    (h : ∀ s ∈ strs, ∃ ip, P s = .ok ip) :
    ParseIPNets P strs = .ok (parsedIPs P strs) := by
  induction strs with
  | nil => rfl
  | cons s rest ih =>
    obtain ⟨ip, hip⟩ := h s (List.mem_cons_self _ _)
    have ih' := ih (fun t ht => h t (List.mem_cons_of_mem _ ht))
    simp [ParseIPNets, parsedIPs, hip, ih', Except.toOption]

/-- When the addresses of all claims on the network parse, the loop of `Sync`
ends with the accumulated addresses followed by those of the claims on the
network, in input order. -/
theorem Sync_loop_ok (P : String → Except GoError IPNet) (icr : IPAMClaimReconciler)
    (objs : List Obj) (ips : List IPNet)
    (h : ∀ c ∈ claimsOnNetwork icr objs, ∀ s ∈ c.Status.IPs, ∃ ip, P s = .ok ip) :
    Sync.loop P icr objs ips = .ok (ips ++ addressesOnNetwork P icr objs) := by
  induction objs generalizing ips with
  | nil => simp [Sync.loop, addressesOnNetwork, claimsOnNetwork]
  | cons obj rest ih =>
    cases obj with
    | other t =>
      have h' : ∀ c ∈ claimsOnNetwork icr rest, ∀ s ∈ c.Status.IPs, ∃ ip, P s = .ok ip := by
        intro c hc
        exact h c (by simpa [claimsOnNetwork] using hc)
      simpa [Sync.loop, addressesOnNetwork, claimsOnNetwork] using ih ips h'
    | ipamClaim c =>
      by_cases hn : c.Spec.Network = icr.netInfo.GetNetworkName
      · have h' : ∀ c ∈ claimsOnNetwork icr rest, ∀ s ∈ c.Status.IPs, ∃ ip, P s = .ok ip := by
          intro d hd
          exact h d (by simp only [claimsOnNetwork, List.filterMap_cons, hn, if_true]
                        exact List.mem_cons_of_mem _ hd)
        have hc : ∀ s ∈ c.Status.IPs, ∃ ip, P s = .ok ip :=
          h c (by simp [claimsOnNetwork, hn])
        have hp := ParseIPNets_ok P c.Status.IPs hc
        have := ih (ips ++ parsedIPs P c.Status.IPs) h'
        simp only [Sync.loop, hn, bne_self_eq_false, hp]
        simpa [addressesOnNetwork, claimsOnNetwork, hn, List.append_assoc] using this
      · have h' : ∀ c ∈ claimsOnNetwork icr rest, ∀ s ∈ c.Status.IPs, ∃ ip, P s = .ok ip := by
          intro d hd
          exact h d (by simpa [claimsOnNetwork, hn] using hd)
        have := ih ips h'
        have hb : (c.Spec.Network != icr.netInfo.GetNetworkName) = true := by
          simpa using hn
        simp only [Sync.loop, hb, if_true]
        simpa [addressesOnNetwork, claimsOnNetwork, hn] using this

/-- When some string of `strs` fails to parse, `ParseIPNets` fails with the
error of one of the failing strings. -/
theorem ParseIPNets_error (P : String → Except GoError IPNet) (strs : List String)
    (h : ∃ s ∈ strs, ∃ e, P s = .error e) :
    ∃ s ∈ strs, ∃ e, P s = .error e ∧ ParseIPNets P strs = .error e := by
  induction strs with
  | nil => obtain ⟨s, hs, _⟩ := h; cases hs
  | cons t rest ih =>
    cases ht : P t with
    | error e => exact ⟨t, List.mem_cons_self _ _, e, ht, by simp [ParseIPNets, ht]⟩
    | ok ip =>
      have hrest : ∃ s ∈ rest, ∃ e, P s = .error e := by
        obtain ⟨s, hs, e, he⟩ := h
        rcases List.mem_cons.mp hs with hst | hsr
        · rw [hst, ht] at he; cases he
        · exact ⟨s, hsr, e, he⟩
      obtain ⟨s, hs, e, he, hp⟩ := ih hrest
      exact ⟨s, List.mem_cons_of_mem _ hs, e, he, by simp [ParseIPNets, ht, hp]⟩

/-- The claims on the network of a collection that starts with a claim. -/
theorem claimsOnNetwork_cons_claim (icr : IPAMClaimReconciler) (c : IPAMClaim)
    (rest : List Obj) :
    claimsOnNetwork icr (Obj.ipamClaim c :: rest) =
      if c.Spec.Network = icr.netInfo.GetNetworkName then c :: claimsOnNetwork icr rest
      else claimsOnNetwork icr rest := by
  by_cases hn : c.Spec.Network = icr.netInfo.GetNetworkName
  · simp [claimsOnNetwork, hn]
  · simp [claimsOnNetwork, hn]

/-- The claims on the network of a collection that starts with another object. -/
theorem claimsOnNetwork_cons_other (icr : IPAMClaimReconciler) (t : String)
    (rest : List Obj) :
    claimsOnNetwork icr (Obj.other t :: rest) = claimsOnNetwork icr rest := by
  simp [claimsOnNetwork]

/-- When some address of a claim on the network fails to parse, the loop of
`Sync` ends with the error wrapping the parse error of such an address,
whatever was accumulated. -/
theorem Sync_loop_error (P : String → Except GoError IPNet) (icr : IPAMClaimReconciler)
    (objs : List Obj)
    (h : ∃ c ∈ claimsOnNetwork icr objs, ∃ s ∈ c.Status.IPs, ∃ e, P s = .error e) :
    ∃ c ∈ claimsOnNetwork icr objs, ∃ s ∈ c.Status.IPs, ∃ e, P s = .error e ∧
      ∀ ips, Sync.loop P icr objs ips = .error (parseError e) := by
  induction objs with
  | nil => obtain ⟨c, hc, _⟩ := h; simp [claimsOnNetwork] at hc
  | cons obj rest ih =>
    cases obj with
    | other t =>
      rw [claimsOnNetwork_cons_other] at h ⊢
      obtain ⟨c, hc, s, hs, e, he, hl⟩ := ih h
      exact ⟨c, hc, s, hs, e, he, fun ips => by simp only [Sync.loop]; exact hl ips⟩
    | ipamClaim d =>
      rw [claimsOnNetwork_cons_claim] at h ⊢
      by_cases hn : d.Spec.Network = icr.netInfo.GetNetworkName
      · rw [if_pos hn] at h ⊢
        by_cases hd : ∃ s ∈ d.Status.IPs, ∃ e, P s = .error e
        · obtain ⟨s, hs, e, he, hp⟩ := ParseIPNets_error P d.Status.IPs hd
          refine ⟨d, List.mem_cons_self _ _, s, hs, e, he, fun ips => ?_⟩
          simp [Sync.loop, hn, hp, parseError]
        · have hok : ∀ s ∈ d.Status.IPs, ∃ ip, P s = .ok ip := by
            intro s hs
            cases hps : P s with
            | error e => exact absurd ⟨s, hs, e, hps⟩ hd
            | ok ip => exact ⟨ip, rfl⟩
          have hrest : ∃ c ∈ claimsOnNetwork icr rest, ∃ s ∈ c.Status.IPs, ∃ e,
              P s = .error e := by
            obtain ⟨c, hc, s, hs, e, he⟩ := h
            rcases List.mem_cons.mp hc with hcd | hcr
            · subst hcd
              exact absurd ⟨s, hs, e, he⟩ hd
            · exact ⟨c, hcr, s, hs, e, he⟩
          obtain ⟨c, hc, s, hs, e, he, hl⟩ := ih hrest
          refine ⟨c, List.mem_cons_of_mem _ hc, s, hs, e, he, fun ips => ?_⟩
          simp only [Sync.loop, hn, bne_self_eq_false, ParseIPNets_ok P d.Status.IPs hok]
          exact hl _
      · rw [if_neg hn] at h ⊢
        obtain ⟨c, hc, s, hs, e, he, hl⟩ := ih h
        have hb : (d.Spec.Network != icr.netInfo.GetNetworkName) = true := by
          simpa using hn
        exact ⟨c, hc, s, hs, e, he, fun ips => by simp only [Sync.loop, hb, if_true]; exact hl ips⟩

/-- The loop of `Sync` passes over the objects that are no `*IPAMClaim`. -/
theorem Sync_loop_recognized (P : String → Except GoError IPNet) (icr : IPAMClaimReconciler)
    (objs : List Obj) (ips : List IPNet) :
    Sync.loop P icr objs ips =
      Sync.loop P icr ((recognized objs).map Obj.ipamClaim) ips := by
  induction objs generalizing ips with
  | nil => rfl
  | cons obj rest ih =>
    cases obj with
    | other t => simpa [Sync.loop, recognized] using ih ips
    | ipamClaim c =>
      have hrec : recognized (Obj.ipamClaim c :: rest) = c :: recognized rest := by
        simp [recognized]
      rw [hrec, List.map_cons]
      simp only [Sync.loop]
      by_cases hb : (c.Spec.Network != icr.netInfo.GetNetworkName) = true
      · simp only [hb, if_true]; exact ih ips
      · simp only [hb]
        cases ParseIPNets P c.Status.IPs with
        | error e => rfl
        | ok ipnets => exact ih _

/-- The loop of `Sync` passes over the claims of other networks. -/
theorem Sync_loop_dropOtherNetworks (P : String → Except GoError IPNet)
    (icr : IPAMClaimReconciler) (objs : List Obj) (ips : List IPNet) :
    Sync.loop P icr (dropOtherNetworks icr objs) ips = Sync.loop P icr objs ips := by
  induction objs generalizing ips with
  | nil => rfl
  | cons obj rest ih =>
    cases obj with
    | other t => simpa [Sync.loop, dropOtherNetworks] using ih ips
    | ipamClaim c =>
      by_cases hn : c.Spec.Network = icr.netInfo.GetNetworkName
      · have hd : dropOtherNetworks icr (Obj.ipamClaim c :: rest) =
            Obj.ipamClaim c :: dropOtherNetworks icr rest := by
          simp [dropOtherNetworks, hn]
        rw [hd]
        simp only [Sync.loop, hn, bne_self_eq_false]
        cases ParseIPNets P c.Status.IPs with
        | error e => rfl
        | ok ipnets => exact ih _
      · have hd : dropOtherNetworks icr (Obj.ipamClaim c :: rest) =
            dropOtherNetworks icr rest := by
          simp [dropOtherNetworks, hn]
        have hb : (c.Spec.Network != icr.netInfo.GetNetworkName) = true := by
          simpa using hn
        rw [hd]
        simp only [Sync.loop, hb, if_true]
        exact ih ips

/-! ## Claims -/

/-- C1 (first commit): when `old` is absent or has no addresses and the write
of the kube client succeeds, `Reconcile` issues exactly one
`UpdateIPAMClaimIPs` call, carrying `new` itself, and returns no error. -/
theorem Reconcile_first_commit_persists (icr : IPAMClaimReconciler) (old : Option IPAMClaim)
    (new : IPAMClaim) (rel : IPReleaser) (tr : Trace)
    (hold : old = none ∨ ∃ o, old = some o ∧ o.Status.IPs = [])
    (hw : icr.kube.UpdateIPAMClaimIPs tr (some new) = none) :
    Reconcile icr old (some new) rel tr =
      .ok (none, tr ++ [Call.UpdateIPAMClaimIPs (some new)]) := by
  have h : ∀ o, old = some o → o.Status.IPs = [] := by
    intro o ho
    rcases hold with h | ⟨o', h1, h2⟩
    · rw [h] at ho; cases ho
    · rw [h1] at ho; cases ho; exact h2
  rw [Reconcile_firstCommit icr old new rel tr h, hw]

/-- C1 at the scenario of the specification: `ns1/pod-a`, old addresses `[]`,
new addresses `["10.0.0.5/24"]`. -/
theorem Reconcile_first_commit_persists_witness :
    Reconcile (icr1 kubeOk) (some (podA [])) (some (podA ["10.0.0.5/24"])) releaserOk [] =
      .ok (none, [] ++ [Call.UpdateIPAMClaimIPs (some (podA ["10.0.0.5/24"]))]) :=
  Reconcile_first_commit_persists (icr1 kubeOk) (some (podA [])) (podA ["10.0.0.5/24"])
    releaserOk [] (Or.inr ⟨podA [], rfl, rfl⟩) rfl

/-- C2 (conflict): when `old` and `new` both carry addresses and the two lists
are not equal as sets, `Reconcile` returns the conflict error (key of `new`,
the original list, the new list) and makes no call at all. -/
theorem Reconcile_conflict_no_write (icr : IPAMClaimReconciler) (old new : IPAMClaim)
    (rel : IPReleaser) (tr : Trace)
    (hA : old.Status.IPs ≠ []) (hB : new.Status.IPs ≠ [])
    (hne : ¬ ∀ x, x ∈ old.Status.IPs ↔ x ∈ new.Status.IPs) :
    Reconcile icr (some old) (some new) rel tr =
      .ok (some (conflictError (new.Namespace ++ "/" ++ new.Name)
        old.Status.IPs new.Status.IPs), tr) := by
  have _ := hB
  have hp : ¬ old.Status.IPs.Perm new.Status.IPs := fun h => hne (fun x => h.mem_iff)
  rw [Reconcile_steady icr old new rel tr hA, if_neg hp]

/-- C2 at the scenario of the specification: old `["10.0.0.5/24"]`, new
`["10.0.0.9/24"]`. -/
theorem Reconcile_conflict_no_write_witness :
    Reconcile (icr1 kubeOk) (some (podA ["10.0.0.5/24"])) (some (podA ["10.0.0.9/24"]))
        releaserOk [] =
      .ok (some (conflictError "ns1/pod-a" ["10.0.0.5/24"] ["10.0.0.9/24"]), []) :=
  Reconcile_conflict_no_write (icr1 kubeOk) (podA ["10.0.0.5/24"]) (podA ["10.0.0.9/24"])
    releaserOk [] (by simp [podA]) (by simp [podA]) (by simp [podA])

/-- C3 (amended, order independence): when `old` carries a non-empty list `A`
and `new` carries a permutation of `A`, `Reconcile` returns no error and makes
no call; and on the steady-state path (`old` has addresses, or `new` is
absent), permuting the list of `old` and the list of `new` changes neither the
calls (none is made) nor whether `Reconcile` succeeds: either both calls return
no error, or both return the conflict error with the same claim key, each
quoting the two lists in the order it was given them. -/
theorem Reconcile_order_independent (icr : IPAMClaimReconciler) (old n : IPAMClaim)
    (new : Option IPAMClaim) (A' B' : List String) (rel : IPReleaser) (tr : Trace)
    (hA : A'.Perm old.Status.IPs) (hB : ∀ c, new = some c → B'.Perm c.Status.IPs) :
    (old.Status.IPs ≠ [] →
      Reconcile icr (some old) (some (withIPs n A')) rel tr = .ok (none, tr)) ∧
    (old.Status.IPs ≠ [] ∨ new = none →
      ∃ e e', Reconcile icr (some old) new rel tr = .ok (e, tr) ∧
        Reconcile icr (some (withIPs old A')) (new.map (fun c => withIPs c B')) rel tr
          = .ok (e', tr) ∧
        (e = none ↔ e' = none) ∧
        ((e = none ∧ e' = none) ∨
          ∃ key,
            e = some (conflictError key old.Status.IPs
              ((new.map (fun c => c.Status.IPs)).getD [])) ∧
            e' = some (conflictError key A' ((new.map (fun _ => B')).getD [])))) := by
  constructor
  · intro ho
    rw [Reconcile_steady icr old (withIPs n A') rel tr ho]
    exact if_pos hA.symm
  · intro hs
    cases new with
    | none =>
      rw [Reconcile_removed, Option.map_none', Reconcile_removed]
      by_cases ho : old.Status.IPs = []
      · have hA' : A' = [] := by rw [ho] at hA; exact hA.eq_nil
        exact ⟨none, none, by simp [ho], by simp [withIPs, hA'], Iff.rfl, Or.inl ⟨rfl, rfl⟩⟩
      · have hA' : A' ≠ [] := fun h => ho (by rw [h] at hA; exact hA.symm.eq_nil)
        exact ⟨_, _, by rw [if_neg ho]; rfl, by simp only [withIPs]; rw [if_neg hA']; rfl,
          by simp, Or.inr ⟨old.Namespace ++ "/" ++ old.Name, rfl, rfl⟩⟩
    | some c =>
      have ho : old.Status.IPs ≠ [] := by
        rcases hs with h | h
        · exact h
        · cases h
      have hA' : (withIPs old A').Status.IPs ≠ [] :=
        fun h => ho (by simp only [withIPs] at h; rw [h] at hA; exact hA.symm.eq_nil)
      have hBc := hB c rfl
      rw [Reconcile_steady icr old c rel tr ho, Option.map_some',
        Reconcile_steady icr _ (withIPs c B') rel tr hA']
      have hiff : (withIPs old A').Status.IPs.Perm (withIPs c B').Status.IPs ↔
          old.Status.IPs.Perm c.Status.IPs := by
        simp only [withIPs]
        exact ⟨fun h => (hA.symm.trans h).trans hBc, fun h => (hA.trans h).trans hBc.symm⟩
      by_cases hp : old.Status.IPs.Perm c.Status.IPs
      · exact ⟨none, none, by rw [if_pos hp], by rw [if_pos (hiff.mpr hp)], Iff.rfl,
          Or.inl ⟨rfl, rfl⟩⟩
      · exact ⟨_, _, by rw [if_neg hp]; rfl, by rw [if_neg (fun h => hp (hiff.mp h))]; rfl,
          by simp, Or.inr ⟨c.Namespace ++ "/" ++ c.Name, rfl, rfl⟩⟩

/-- C3 (amended) on two addresses: old `[a, b]` against new `[b, a]`, and a
conflicting pair old `[a, b]`, new `[c, b]` with both lists reversed. -/
theorem Reconcile_order_independent_witness :
    (Reconcile (icr1 kubeOk) (some (podA ["10.0.0.5/24", "fd00::5/64"]))
        (some (withIPs (podA []) ["fd00::5/64", "10.0.0.5/24"])) releaserOk [] =
      .ok (none, [])) ∧
    ∃ e e', Reconcile (icr1 kubeOk) (some (podA ["10.0.0.5/24", "fd00::5/64"]))
        (some (podA ["10.0.0.9/24", "fd00::5/64"])) releaserOk [] = .ok (e, []) ∧
      Reconcile (icr1 kubeOk)
        (some (withIPs (podA ["10.0.0.5/24", "fd00::5/64"]) ["fd00::5/64", "10.0.0.5/24"]))
        ((some (podA ["10.0.0.9/24", "fd00::5/64"])).map
          (fun c => withIPs c ["fd00::5/64", "10.0.0.9/24"])) releaserOk [] = .ok (e', []) ∧
      (e = none ↔ e' = none) ∧
      ((e = none ∧ e' = none) ∨
        ∃ key,
          e = some (conflictError key (podA ["10.0.0.5/24", "fd00::5/64"]).Status.IPs
            (((some (podA ["10.0.0.9/24", "fd00::5/64"])).map
              (fun c => c.Status.IPs)).getD [])) ∧
          e' = some (conflictError key ["fd00::5/64", "10.0.0.5/24"]
            (((some (podA ["10.0.0.9/24", "fd00::5/64"])).map
              (fun _ => ["fd00::5/64", "10.0.0.9/24"])).getD []))) :=
  have h := Reconcile_order_independent (icr1 kubeOk) (podA ["10.0.0.5/24", "fd00::5/64"])
    (podA []) (some (podA ["10.0.0.9/24", "fd00::5/64"]))
    ["fd00::5/64", "10.0.0.5/24"] ["fd00::5/64", "10.0.0.9/24"] releaserOk []
    (List.Perm.swap _ _ _)
    (fun c hc => by
      have := Option.some.inj hc
      rw [← this]
      exact List.Perm.swap _ _ _)
  ⟨h.1 (by simp [podA]), h.2 (Or.inl (by simp [podA]))⟩

/-- C3 as stated fails: on the steady-state path the outcome of `Reconcile`
does change when the list of `old` is permuted. Old `[a, b]` and its
permutation `[b, a]`, each against new `[c]`, return different errors: the
conflict error quotes the list of `old` in the order given. -/
theorem Reconcile_order_independent_counterexample :
    (["fd00::5/64", "10.0.0.5/24"] : List String).Perm
      (podA ["10.0.0.5/24", "fd00::5/64"]).Status.IPs ∧
    Reconcile (icr1 kubeOk) (some (podA ["10.0.0.5/24", "fd00::5/64"]))
        (some (podA ["10.0.0.9/24"])) releaserOk [] =
      .ok (some (conflictError "ns1/pod-a" ["10.0.0.5/24", "fd00::5/64"] ["10.0.0.9/24"]),
        []) ∧
    Reconcile (icr1 kubeOk)
        (some (withIPs (podA ["10.0.0.5/24", "fd00::5/64"]) ["fd00::5/64", "10.0.0.5/24"]))
        (some (podA ["10.0.0.9/24"])) releaserOk [] =
      .ok (some (conflictError "ns1/pod-a" ["fd00::5/64", "10.0.0.5/24"] ["10.0.0.9/24"]),
        []) ∧
    Reconcile (icr1 kubeOk) (some (podA ["10.0.0.5/24", "fd00::5/64"]))
        (some (podA ["10.0.0.9/24"])) releaserOk [] ≠
      Reconcile (icr1 kubeOk)
        (some (withIPs (podA ["10.0.0.5/24", "fd00::5/64"]) ["fd00::5/64", "10.0.0.5/24"]))
        (some (podA ["10.0.0.9/24"])) releaserOk [] := by
  have h1 : Reconcile (icr1 kubeOk) (some (podA ["10.0.0.5/24", "fd00::5/64"]))
      (some (podA ["10.0.0.9/24"])) releaserOk [] =
      .ok (some (conflictError "ns1/pod-a" ["10.0.0.5/24", "fd00::5/64"] ["10.0.0.9/24"]),
        []) := by
    rw [Reconcile_steady _ _ _ _ _ (by simp [podA])]
    have hp : ¬ (podA ["10.0.0.5/24", "fd00::5/64"]).Status.IPs.Perm
        (podA ["10.0.0.9/24"]).Status.IPs := by
      intro h
      have := h.length_eq
      simp [podA] at this
    rw [if_neg hp]
    rfl
  have h2 : Reconcile (icr1 kubeOk)
      (some (withIPs (podA ["10.0.0.5/24", "fd00::5/64"]) ["fd00::5/64", "10.0.0.5/24"]))
      (some (podA ["10.0.0.9/24"])) releaserOk [] =
      .ok (some (conflictError "ns1/pod-a" ["fd00::5/64", "10.0.0.5/24"] ["10.0.0.9/24"]),
        []) := by
    rw [Reconcile_steady _ _ _ _ _ (by simp [withIPs])]
    have hp : ¬ (withIPs (podA ["10.0.0.5/24", "fd00::5/64"])
        ["fd00::5/64", "10.0.0.5/24"]).Status.IPs.Perm (podA ["10.0.0.9/24"]).Status.IPs := by
      intro h
      have := h.length_eq
      simp [podA, withIPs] at this
    rw [if_neg hp]
    rfl
  refine ⟨List.Perm.swap _ _ _, h1, h2, ?_⟩
  rw [h1, h2]
  simp [conflictError]

/-- C4 (amended): when `old` carries a non-empty list `A` and `new` a list
`A'`, `Reconcile` succeeds as a no-op (no error, no call) exactly when every
address occurs as often in `A'` as in `A`; in particular it does so when `A'`
holds the same elements the same number of times each. -/
theorem Reconcile_same_counts_noop (icr : IPAMClaimReconciler) (old new : IPAMClaim)
    (rel : IPReleaser) (tr : Trace) (hA : old.Status.IPs ≠ []) :
    Reconcile icr (some old) (some new) rel tr = .ok (none, tr) ↔
      ∀ x, old.Status.IPs.count x = new.Status.IPs.count x := by
  rw [Reconcile_steady icr old new rel tr hA, ← List.perm_iff_count]
  by_cases hp : old.Status.IPs.Perm new.Status.IPs
  · simp [hp]
  · simp [hp]

/-- C4 (amended) on `[a, a, b]` against `[a, b, a]`. -/
theorem Reconcile_same_counts_noop_witness :
    Reconcile (icr1 kubeOk) (some (podA ["10.0.0.5/24", "10.0.0.5/24", "fd00::5/64"]))
        (some (podA ["10.0.0.5/24", "fd00::5/64", "10.0.0.5/24"])) releaserOk [] =
      .ok (none, []) :=
  (Reconcile_same_counts_noop (icr1 kubeOk) (podA ["10.0.0.5/24", "10.0.0.5/24", "fd00::5/64"])
    (podA ["10.0.0.5/24", "fd00::5/64", "10.0.0.5/24"]) releaserOk []
    (by simp [podA])).mpr (by
      rw [← List.perm_iff_count]
      exact List.Perm.cons _ (List.Perm.swap _ _ _))

/-- C4 as stated fails: `[x]` and `[x, x]` have the same underlying set, yet
`Reconcile` returns the conflict error for them. -/
theorem Reconcile_duplicates_counterexample :
    (∀ x, x ∈ (podA ["10.0.0.5/24"]).Status.IPs ↔
      x ∈ (podA ["10.0.0.5/24", "10.0.0.5/24"]).Status.IPs) ∧
    Reconcile (icr1 kubeOk) (some (podA ["10.0.0.5/24"]))
        (some (podA ["10.0.0.5/24", "10.0.0.5/24"])) releaserOk [] =
      .ok (some (conflictError "ns1/pod-a" ["10.0.0.5/24"] ["10.0.0.5/24", "10.0.0.5/24"]),
        []) := by
  constructor
  · intro x; simp [podA]
  · rw [Reconcile_steady _ _ _ _ _ (by simp [podA])]
    have hp : ¬ (podA ["10.0.0.5/24"]).Status.IPs.Perm
        (podA ["10.0.0.5/24", "10.0.0.5/24"]).Status.IPs := by
      intro h
      have := h.length_eq
      simp [podA] at this
    rw [if_neg hp]
    rfl

/-- C5 (amended): a second call of `Reconcile` with the same `(old, new)`
repeats the first one. Both calls return; the second issues the same calls as
the first, which are the one write of `new` when `new` is present and `old` is
absent or without addresses (a first commit), and none otherwise; and when the
first call made no write the second returns the same result, so that a first
call that succeeded without writing is followed by a second call that succeeds
without writing. -/
theorem ReconcileTwice_repeats (icr : IPAMClaimReconciler) (old new : Option IPAMClaim)
    (rel : IPReleaser) (tr : Trace) :
    ∃ e1 e2 calls,
      ReconcileTwice icr old new rel tr =
        .ok ((e1, tr ++ calls), (e2, (tr ++ calls) ++ calls)) ∧
      (calls = if new.isSome = true ∧ ∀ o, old = some o → o.Status.IPs = []
        then [Call.UpdateIPAMClaimIPs new] else []) ∧
      (calls = [] → e2 = e1) := by
  rcases Reconcile_cases icr old new rel with ⟨hnot, e, h⟩ | ⟨n, hn, hold, h⟩
  · exact ⟨e, e, [], by simp [ReconcileTwice, h], by rw [if_neg hnot], fun _ => rfl⟩
  · obtain ⟨e1, h1⟩ := h tr
    obtain ⟨e2, h2⟩ := h (tr ++ [Call.UpdateIPAMClaimIPs new])
    exact ⟨e1, e2, [Call.UpdateIPAMClaimIPs new], by simp [ReconcileTwice, h1, h2],
      by rw [if_pos ⟨by simp [hn], hold⟩], fun hc => by cases hc⟩

/-- C5 as stated fails: with `old` absent and `new` present, the second of two
calls in a row writes `new` a second time. -/
theorem ReconcileTwice_counterexample :
    ReconcileTwice (icr1 kubeOk) none (some (podA ["10.0.0.5/24"])) releaserOk [] =
      .ok ((none, [Call.UpdateIPAMClaimIPs (some (podA ["10.0.0.5/24"]))]),
        (none, [Call.UpdateIPAMClaimIPs (some (podA ["10.0.0.5/24"])),
          Call.UpdateIPAMClaimIPs (some (podA ["10.0.0.5/24"]))])) := by
  rfl

/-- C6 (side effects): every call of `Reconcile` returns, and the calls it
issues are either none or exactly the one write `UpdateIPAMClaimIPs new`; a
write happens only with `new` present and `old` absent or without addresses
(never on the steady-state or conflict path); no `ReleaseIPs` call is issued,
and the releaser has no influence on the result. -/
theorem Reconcile_side_effects (icr : IPAMClaimReconciler) (old new : Option IPAMClaim)
    (rel : IPReleaser) (tr : Trace) :
    ∃ e calls, Reconcile icr old new rel tr = .ok (e, tr ++ calls) ∧
      (calls = [] ∨ calls = [Call.UpdateIPAMClaimIPs new]) ∧
      (calls ≠ [] → new.isSome = true ∧ ∀ o, old = some o → o.Status.IPs = []) ∧
      (∀ ips, Call.ReleaseIPs ips ∉ calls) ∧
      (∀ rel', Reconcile icr old new rel' tr = Reconcile icr old new rel tr) := by
  have hrel : ∀ rel', Reconcile icr old new rel' tr = Reconcile icr old new rel tr :=
    fun _ => rfl
  rcases Reconcile_cases icr old new rel with ⟨_, e, h⟩ | ⟨n, hn, hold, h⟩
  · exact ⟨e, [], by simp [h], Or.inl rfl, fun hc => absurd rfl hc, fun _ => by simp, hrel⟩
  · obtain ⟨e1, h1⟩ := h tr
    exact ⟨e1, [Call.UpdateIPAMClaimIPs new], h1, Or.inr rfl,
      fun _ => ⟨by simp [hn], hold⟩, fun _ => by simp, hrel⟩

/-- C7 (amended): on the first-commit path, when the write of the kube client
fails with `err`, `Reconcile` returns the error that wraps `err` and carries
the name of `new` and the address list `new.Status.IPs` (the namespace is not
part of it), after that one write and no other call. -/
theorem Reconcile_persistence_failure (icr : IPAMClaimReconciler) (old : Option IPAMClaim)
    (new : IPAMClaim) (rel : IPReleaser) (tr : Trace) (err : GoError)
    (hold : old = none ∨ ∃ o, old = some o ∧ o.Status.IPs = [])
    (hw : icr.kube.UpdateIPAMClaimIPs tr (some new) = some err) :
    Reconcile icr old (some new) rel tr =
      .ok (some (updateError new.Name new.Status.IPs err),
        tr ++ [Call.UpdateIPAMClaimIPs (some new)]) ∧
    (updateError new.Name new.Status.IPs err).Unwrap = some err ∧
    (updateError new.Name new.Status.IPs err).Is err = true := by
  have h : ∀ o, old = some o → o.Status.IPs = [] := by
    intro o ho
    rcases hold with h | ⟨o', h1, h2⟩
    · rw [h] at ho; cases ho
    · rw [h1] at ho; cases ho; exact h2
  refine ⟨by rw [Reconcile_firstCommit icr old new rel tr h, hw], rfl, ?_⟩
  cases err <;> simp [updateError, GoError.Is]

/-- C7 (amended) at `ns1/pod-a` with a kube client that times out. -/
theorem Reconcile_persistence_failure_witness :
    Reconcile (icr1 (kubeFail errBoom)) none (some (podA ["10.0.0.5/24"])) releaserOk [] =
      .ok (some (updateError "pod-a" ["10.0.0.5/24"] errBoom),
        [] ++ [Call.UpdateIPAMClaimIPs (some (podA ["10.0.0.5/24"]))]) ∧
    (updateError "pod-a" ["10.0.0.5/24"] errBoom).Unwrap = some errBoom ∧
    (updateError "pod-a" ["10.0.0.5/24"] errBoom).Is errBoom = true :=
  Reconcile_persistence_failure (icr1 (kubeFail errBoom)) none (podA ["10.0.0.5/24"])
    releaserOk [] errBoom (Or.inl rfl) rfl

/-- C7 as stated fails: two claims with the same name in different namespaces
get the very same error, so the error does not carry the (namespace, name)
pair. -/
theorem Reconcile_persistence_failure_counterexample :
    (podA ["10.0.0.5/24"]).Namespace ≠
      ({ podA ["10.0.0.5/24"] with Namespace := "ns2" } : IPAMClaim).Namespace ∧
    ∃ e t1 t2,
      Reconcile (icr1 (kubeFail errBoom)) none (some (podA ["10.0.0.5/24"])) releaserOk [] =
        .ok (some e, t1) ∧
      Reconcile (icr1 (kubeFail errBoom)) none
        (some { podA ["10.0.0.5/24"] with Namespace := "ns2" }) releaserOk [] =
        .ok (some e, t2) := by
  refine ⟨by decide, updateError "pod-a" ["10.0.0.5/24"] errBoom, _, _, rfl, rfl⟩

/-- C8 (gating): with no lister, or a network that does not require IPAM, or a
layer-3 topology, or an empty claim name, `FindIPAMClaim` returns no claim and
exactly `ErrPersistentIPsNotAvailableOnNetwork`, and makes no call (no store
lookup), whatever the claim name and namespace. -/
theorem FindIPAMClaim_not_supported (icr : IPAMClaimReconciler) (claimName ns : String)
    (tr : Trace)
    (h : icr.lister = none ∨ icr.netInfo.DoesNetworkRequireIPAM = false ∨
      icr.netInfo.TopologyType = Layer3Topology ∨ claimName = "") :
    FindIPAMClaim icr claimName ns tr =
      ((none, some ErrPersistentIPsNotAvailableOnNetwork), tr) := by
  unfold FindIPAMClaim
  cases hl : icr.lister with
  | none => rfl
  | some lister =>
    rcases h with h | h | h | h
    · rw [hl] at h; cases h
    · simp [h]
    · simp [h]
    · simp [h]

/-- C8 on a network with persistence disabled (IPAM not required), for a valid
claim name held by the store. -/
theorem FindIPAMClaim_not_supported_witness :
    FindIPAMClaim (NewIPAMClaimReconciler kubeOk
        { GetNetworkName := "net1", TopologyType := "layer2", DoesNetworkRequireIPAM := false }
        (some (listerOf [podA ["10.0.0.5/24"]]))) "pod-a" "ns1" [] =
      ((none, some ErrPersistentIPsNotAvailableOnNetwork), []) :=
  FindIPAMClaim_not_supported _ "pod-a" "ns1" [] (Or.inr (Or.inl rfl))

/-- C9 (lookup): with a lister, a network that requires IPAM, a topology other
than layer 3 and a non-empty claim name, `FindIPAMClaim` makes the one lookup
`Get(namespace, claimName)`; it returns the claim of the store unchanged when
the lookup succeeds; when the lookup fails with `e` it returns no claim and the
error `failed to get IPAMClaim %q: %w` wrapping `e`, which is not the
not-supported sentinel (and `errors.Is` finds the sentinel in it only if it
finds it in `e`). -/
theorem FindIPAMClaim_lookup (icr : IPAMClaimReconciler) (lister : IPAMClaimLister)
    (claimName ns : String) (tr : Trace)
    (hl : icr.lister = some lister) (hi : icr.netInfo.DoesNetworkRequireIPAM = true)
    (ht : icr.netInfo.TopologyType ≠ Layer3Topology) (hn : claimName ≠ "") :
    (∀ claim, lister.Get tr ns claimName = .ok claim →
      FindIPAMClaim icr claimName ns tr =
        ((claim, none), tr ++ [Call.ListerGet ns claimName])) ∧
    (∀ e, lister.Get tr ns claimName = .error e →
      ∃ err, FindIPAMClaim icr claimName ns tr =
          ((none, some err), tr ++ [Call.ListerGet ns claimName]) ∧
        err = GoError.ErrorfW "failed to get IPAMClaim %q: %w" [FmtArg.str claimName] e ∧
        err.Unwrap = some e ∧
        err ≠ ErrPersistentIPsNotAvailableOnNetwork ∧
        err.Is ErrPersistentIPsNotAvailableOnNetwork =
          e.Is ErrPersistentIPsNotAvailableOnNetwork) := by
  constructor
  · intro claim hg
    simp [FindIPAMClaim, hl, hi, ht, hn, hg]
  · intro e hg
    refine ⟨_, ?_, rfl, rfl, ?_, ?_⟩
    · simp [FindIPAMClaim, hl, hi, ht, hn, hg]
    · intro h; cases h
    · simp [GoError.Is, ErrPersistentIPsNotAvailableOnNetwork]

/-- C9 on a store that holds `ns1/pod-a`: the lookup of `pod-a` returns the
stored claim, the lookup of `pod-b` a wrapped not-found error. -/
theorem FindIPAMClaim_lookup_witness :
    FindIPAMClaim (icrWith [podA ["10.0.0.5/24"]]) "pod-a" "ns1" [] =
      ((some (podA ["10.0.0.5/24"]), none), [] ++ [Call.ListerGet "ns1" "pod-a"]) ∧
    ∃ err, FindIPAMClaim (icrWith [podA ["10.0.0.5/24"]]) "pod-b" "ns1" [] =
        ((none, some err), [] ++ [Call.ListerGet "ns1" "pod-b"]) ∧
      err = GoError.ErrorfW "failed to get IPAMClaim %q: %w" [FmtArg.str "pod-b"]
        (GoError.New "ipamclaim not found") ∧
      err.Unwrap = some (GoError.New "ipamclaim not found") ∧
      err ≠ ErrPersistentIPsNotAvailableOnNetwork ∧
      err.Is ErrPersistentIPsNotAvailableOnNetwork =
        (GoError.New "ipamclaim not found").Is ErrPersistentIPsNotAvailableOnNetwork :=
  ⟨(FindIPAMClaim_lookup (icrWith [podA ["10.0.0.5/24"]]) (listerOf [podA ["10.0.0.5/24"]])
      "pod-a" "ns1" [] rfl rfl (by decide) (by decide)).1 _ (by simp [listerOf, podA]),
   (FindIPAMClaim_lookup (icrWith [podA ["10.0.0.5/24"]]) (listerOf [podA ["10.0.0.5/24"]])
      "pod-b" "ns1" [] rfl rfl (by decide) (by decide)).2 _ (by simp [listerOf, podA])⟩

/-- C10 (network filter, one bulk allocation): when the addresses of all claims
on the network of the reconciler parse and there is at least one of them,
`Sync` makes exactly one call, `AllocateIPs`, whose argument is the
concatenation, in input order, of the parsed `Status.IPs` of the claims whose
`Spec.Network` is the network name of the reconciler; the claims that
contribute are all on that network. -/
theorem Sync_single_bulk_allocation (P : String → Except GoError IPNet)
    (IsErrAllocated : GoError → Bool) (icr : IPAMClaimReconciler) (objs : List Obj)
    (ipAllocator : IPAllocator) (tr : Trace)
    (hwf : ∀ c ∈ claimsOnNetwork icr objs, ∀ s ∈ c.Status.IPs, ∃ ip, P s = .ok ip)
    (hne : addressesOnNetwork P icr objs ≠ []) :
    (∃ e, Sync P IsErrAllocated icr objs ipAllocator tr =
      (e, tr ++ [Call.AllocateIPs (addressesOnNetwork P icr objs)])) ∧
    (∀ c ∈ claimsOnNetwork icr objs,
      Obj.ipamClaim c ∈ objs ∧ c.Spec.Network = icr.netInfo.GetNetworkName) := by
  constructor
  · have hloop := Sync_loop_ok P icr objs [] hwf
    rw [List.nil_append] at hloop
    have hlen : (addressesOnNetwork P icr objs).length > 0 := List.length_pos.mpr hne
    unfold Sync
    rw [hloop]
    simp only [hlen, if_true]
    cases ipAllocator.AllocateIPs tr (addressesOnNetwork P icr objs) with
    | none => exact ⟨none, rfl⟩
    | some err =>
      cases hk : IsErrAllocated err with
      | false =>
        exact ⟨some (GoError.ErrorfW "failed allocating persistent ips: %w" [] err),
          by simp [hk]⟩
      | true => exact ⟨none, by simp [hk]⟩
  · intro c hc
    simp only [claimsOnNetwork, List.mem_filterMap] at hc
    obtain ⟨obj, hobj, hsome⟩ := hc
    cases obj with
    | other t => cases hsome
    | ipamClaim d =>
      by_cases hn : d.Spec.Network = icr.netInfo.GetNetworkName
      · simp only [hn, if_true, Option.some.injEq] at hsome
        subst hsome
        exact ⟨hobj, hn⟩
      · simp [hn] at hsome

/-- C10 at the scenario of the specification: two claims on `net1` with
`10.0.0.5/24` and `10.0.0.6/24`, one claim on `net2` with `10.0.0.7/24`; the
allocator receives exactly the first two addresses. -/
theorem Sync_single_bulk_allocation_witness :
    (∃ e, Sync exampleParseIPNet exampleIsErrAllocated (icr1 kubeOk)
        [Obj.ipamClaim (claimOn "pod-a" "net1" ["10.0.0.5/24"]),
         Obj.ipamClaim (claimOn "pod-b" "net1" ["10.0.0.6/24"]),
         Obj.ipamClaim (claimOn "pod-c" "net2" ["10.0.0.7/24"])] allocatorOk [] =
      (e, [] ++ [Call.AllocateIPs (addressesOnNetwork exampleParseIPNet (icr1 kubeOk)
        [Obj.ipamClaim (claimOn "pod-a" "net1" ["10.0.0.5/24"]),
         Obj.ipamClaim (claimOn "pod-b" "net1" ["10.0.0.6/24"]),
         Obj.ipamClaim (claimOn "pod-c" "net2" ["10.0.0.7/24"])])])) ∧
    addressesOnNetwork exampleParseIPNet (icr1 kubeOk)
        [Obj.ipamClaim (claimOn "pod-a" "net1" ["10.0.0.5/24"]),
         Obj.ipamClaim (claimOn "pod-b" "net1" ["10.0.0.6/24"]),
         Obj.ipamClaim (claimOn "pod-c" "net2" ["10.0.0.7/24"])] =
      [{ IP := [10, 0, 0, 5], Mask := [255, 255, 255, 0] },
       { IP := [10, 0, 0, 6], Mask := [255, 255, 255, 0] }] :=
  ⟨(Sync_single_bulk_allocation exampleParseIPNet exampleIsErrAllocated (icr1 kubeOk)
      [Obj.ipamClaim (claimOn "pod-a" "net1" ["10.0.0.5/24"]),
       Obj.ipamClaim (claimOn "pod-b" "net1" ["10.0.0.6/24"]),
       Obj.ipamClaim (claimOn "pod-c" "net2" ["10.0.0.7/24"])] allocatorOk []
      (by simp [claimsOnNetwork, claimOn, icr1, NewIPAMClaimReconciler, net1,
            exampleParseIPNet])
      (by simp [addressesOnNetwork, claimsOnNetwork, parsedIPs, claimOn, icr1,
            NewIPAMClaimReconciler, net1, exampleParseIPNet, Except.toOption])).1,
   by simp [addressesOnNetwork, claimsOnNetwork, parsedIPs, claimOn, icr1,
        NewIPAMClaimReconciler, net1, exampleParseIPNet, Except.toOption]⟩

/-- C11 (allocator outcome): when the addresses of all claims on the network
parse and there is at least one of them, `Sync` returns no error if
`AllocateIPs` answers no error or an error that `IsErrAllocated` accepts, and
for every other error of the allocator it returns the error
`failed allocating persistent ips: %w` wrapping it. -/
theorem Sync_allocator_outcome (P : String → Except GoError IPNet)
    (IsErrAllocated : GoError → Bool) (icr : IPAMClaimReconciler) (objs : List Obj)
    (ipAllocator : IPAllocator) (tr : Trace)
    (hwf : ∀ c ∈ claimsOnNetwork icr objs, ∀ s ∈ c.Status.IPs, ∃ ip, P s = .ok ip)
    (hne : addressesOnNetwork P icr objs ≠ []) :
    (ipAllocator.AllocateIPs tr (addressesOnNetwork P icr objs) = none →
      (Sync P IsErrAllocated icr objs ipAllocator tr).1 = none) ∧
    (∀ err, ipAllocator.AllocateIPs tr (addressesOnNetwork P icr objs) = some err →
      IsErrAllocated err = true →
      (Sync P IsErrAllocated icr objs ipAllocator tr).1 = none) ∧
    (∀ err, ipAllocator.AllocateIPs tr (addressesOnNetwork P icr objs) = some err →
      IsErrAllocated err = false →
      (Sync P IsErrAllocated icr objs ipAllocator tr).1 = some (allocationError err) ∧
      (allocationError err).Unwrap = some err) := by
  have hloop := Sync_loop_ok P icr objs [] hwf
  rw [List.nil_append] at hloop
  have hlen : (addressesOnNetwork P icr objs).length > 0 := List.length_pos.mpr hne
  refine ⟨fun h => ?_, fun err h hk => ?_, fun err h hk => ⟨?_, rfl⟩⟩
  · simp [Sync, hloop, hlen, h]
  · simp [Sync, hloop, hlen, h, hk]
  · simp [Sync, hloop, hlen, h, hk, allocationError]

/-- C11 on one claim of `net1`: an allocator that answers nil, one that answers
"already allocated", and one that answers "range is full". -/
theorem Sync_allocator_outcome_witness :
    (Sync exampleParseIPNet exampleIsErrAllocated (icr1 kubeOk)
      [Obj.ipamClaim (claimOn "pod-a" "net1" ["10.0.0.5/24"])]
      (allocatorAnswering none) []).1 = none ∧
    (Sync exampleParseIPNet exampleIsErrAllocated (icr1 kubeOk)
      [Obj.ipamClaim (claimOn "pod-a" "net1" ["10.0.0.5/24"])]
      (allocatorAnswering (some exampleErrAllocated)) []).1 = none ∧
    (Sync exampleParseIPNet exampleIsErrAllocated (icr1 kubeOk)
      [Obj.ipamClaim (claimOn "pod-a" "net1" ["10.0.0.5/24"])]
      (allocatorAnswering (some exampleErrFull)) []).1 = some (allocationError exampleErrFull) ∧
    (allocationError exampleErrFull).Unwrap = some exampleErrFull :=
  have hwf : ∀ c ∈ claimsOnNetwork (icr1 kubeOk)
      [Obj.ipamClaim (claimOn "pod-a" "net1" ["10.0.0.5/24"])],
      ∀ s ∈ c.Status.IPs, ∃ ip, exampleParseIPNet s = .ok ip := by
    simp [claimsOnNetwork, claimOn, icr1, NewIPAMClaimReconciler, net1, exampleParseIPNet]
  have hne : addressesOnNetwork exampleParseIPNet (icr1 kubeOk)
      [Obj.ipamClaim (claimOn "pod-a" "net1" ["10.0.0.5/24"])] ≠ [] := by
    simp [addressesOnNetwork, claimsOnNetwork, parsedIPs, claimOn, icr1,
      NewIPAMClaimReconciler, net1, exampleParseIPNet, Except.toOption]
  ⟨(Sync_allocator_outcome exampleParseIPNet exampleIsErrAllocated (icr1 kubeOk) _
      (allocatorAnswering none) [] hwf hne).1 rfl,
   (Sync_allocator_outcome exampleParseIPNet exampleIsErrAllocated (icr1 kubeOk) _
      (allocatorAnswering (some exampleErrAllocated)) [] hwf hne).2.1 _ rfl (by decide),
   (Sync_allocator_outcome exampleParseIPNet exampleIsErrAllocated (icr1 kubeOk) _
      (allocatorAnswering (some exampleErrFull)) [] hwf hne).2.2 _ rfl (by decide)⟩

/-- C12 (malformed record): when some address of some claim on the network of
the reconciler fails to parse, `Sync` returns the error
`failed at parsing IP when allocating persistent IPs: %w` wrapping the parse
error of such an address, and makes no call at all (no `AllocateIPs`),
whatever the other claims hold. -/
theorem Sync_malformed_record (P : String → Except GoError IPNet)
    (IsErrAllocated : GoError → Bool) (icr : IPAMClaimReconciler) (objs : List Obj)
    (ipAllocator : IPAllocator) (tr : Trace)
    (h : ∃ c ∈ claimsOnNetwork icr objs, ∃ s ∈ c.Status.IPs, ∃ e, P s = .error e) :
    ∃ c ∈ claimsOnNetwork icr objs, ∃ s ∈ c.Status.IPs, ∃ e, P s = .error e ∧
      Sync P IsErrAllocated icr objs ipAllocator tr = (some (parseError e), tr) ∧
      (parseError e).Unwrap = some e := by
  obtain ⟨c, hc, s, hs, e, he, hl⟩ := Sync_loop_error P icr objs h
  exact ⟨c, hc, s, hs, e, he, by simp [Sync, hl []], rfl⟩

/-- C12 on two claims of `net1`, the first well-formed, the second holding a
string that is no address. -/
theorem Sync_malformed_record_witness :
    ∃ c ∈ claimsOnNetwork (icr1 kubeOk)
        [Obj.ipamClaim (claimOn "pod-a" "net1" ["10.0.0.5/24"]),
         Obj.ipamClaim (claimOn "pod-b" "net1" ["10.0.0.6/24", "not-an-address"])],
      ∃ s ∈ c.Status.IPs, ∃ e, exampleParseIPNet s = .error e ∧
      Sync exampleParseIPNet exampleIsErrAllocated (icr1 kubeOk)
        [Obj.ipamClaim (claimOn "pod-a" "net1" ["10.0.0.5/24"]),
         Obj.ipamClaim (claimOn "pod-b" "net1" ["10.0.0.6/24", "not-an-address"])]
        allocatorOk [] = (some (parseError e), []) ∧
      (parseError e).Unwrap = some e :=
  Sync_malformed_record exampleParseIPNet exampleIsErrAllocated (icr1 kubeOk) _ allocatorOk []
    ⟨claimOn "pod-b" "net1" ["10.0.0.6/24", "not-an-address"],
      by simp [claimsOnNetwork, claimOn, icr1, NewIPAMClaimReconciler, net1],
      "not-an-address", by simp [claimOn], GoError.New "invalid CIDR address",
      by simp [exampleParseIPNet]⟩

/-- C13 (nothing to allocate): when no claim on the network of the reconciler
carries an address (in particular when there is no such claim), `Sync` returns
no error and makes no call, whatever the allocator would answer; so it does on
the empty collection. -/
theorem Sync_nothing_to_allocate (P : String → Except GoError IPNet)
    (IsErrAllocated : GoError → Bool) (icr : IPAMClaimReconciler) (objs : List Obj)
    (ipAllocator : IPAllocator) (tr : Trace)
    (h : ∀ c ∈ claimsOnNetwork icr objs, c.Status.IPs = []) :
    Sync P IsErrAllocated icr objs ipAllocator tr = (none, tr) ∧
    Sync P IsErrAllocated icr [] ipAllocator tr = (none, tr) := by
  have hwf : ∀ c ∈ claimsOnNetwork icr objs, ∀ s ∈ c.Status.IPs, ∃ ip, P s = .ok ip := by
    intro c hc s hs
    rw [h c hc] at hs
    cases hs
  have hloop := Sync_loop_ok P icr objs [] hwf
  have hempty : addressesOnNetwork P icr objs = [] := by
    simp only [addressesOnNetwork, List.flatMap_eq_nil_iff]
    intro c hc
    rw [h c hc]
    rfl
  rw [List.nil_append, hempty] at hloop
  exact ⟨by simp [Sync, hloop], by simp [Sync, Sync.loop]⟩

/-- C13 on a claim of `net2` with an address and a claim of `net1` without
addresses, with an allocator that would fail. -/
theorem Sync_nothing_to_allocate_witness :
    Sync exampleParseIPNet exampleIsErrAllocated (icr1 kubeOk)
        [Obj.ipamClaim (claimOn "pod-c" "net2" ["10.0.0.7/24"]),
         Obj.ipamClaim (claimOn "pod-a" "net1" [])]
        (allocatorAnswering (some exampleErrFull)) [] = (none, []) ∧
    Sync exampleParseIPNet exampleIsErrAllocated (icr1 kubeOk) []
        (allocatorAnswering (some exampleErrFull)) [] = (none, []) :=
  Sync_nothing_to_allocate exampleParseIPNet exampleIsErrAllocated (icr1 kubeOk) _
    (allocatorAnswering (some exampleErrFull)) []
    (by simp [claimsOnNetwork, claimOn, icr1, NewIPAMClaimReconciler, net1])

/-- C15 (removal of a committed claim): when `old` carries a non-empty list
`A`, `Reconcile` with `new` absent returns the conflict error (key of `old`,
`A` against no addresses) and makes no call; with `new` present but without
addresses it returns the conflict error (key of `new`, `A` against no
addresses) and makes no call. -/
theorem Reconcile_removal_is_conflict (icr : IPAMClaimReconciler) (old new : IPAMClaim)
    (rel : IPReleaser) (tr : Trace)
    (hA : old.Status.IPs ≠ []) (hB : new.Status.IPs = []) :
    Reconcile icr (some old) none rel tr =
      .ok (some (conflictError (old.Namespace ++ "/" ++ old.Name) old.Status.IPs []), tr) ∧
    Reconcile icr (some old) (some new) rel tr =
      .ok (some (conflictError (new.Namespace ++ "/" ++ new.Name) old.Status.IPs []), tr) := by
  constructor
  · rw [Reconcile_removed, if_neg hA]
  · have hp : ¬ old.Status.IPs.Perm new.Status.IPs := by
      rw [hB]; intro h; exact hA h.eq_nil
    rw [Reconcile_steady icr old new rel tr hA, if_neg hp, hB]

/-- C15 on `ns1/pod-a` with `["10.0.0.5/24"]`, removed or emptied. -/
theorem Reconcile_removal_is_conflict_witness :
    Reconcile (icr1 kubeOk) (some (podA ["10.0.0.5/24"])) none releaserOk [] =
      .ok (some (conflictError ("ns1" ++ "/" ++ "pod-a") ["10.0.0.5/24"] []), []) ∧
    Reconcile (icr1 kubeOk) (some (podA ["10.0.0.5/24"])) (some (podA [])) releaserOk [] =
      .ok (some (conflictError ("ns1" ++ "/" ++ "pod-a") ["10.0.0.5/24"] []), []) :=
  Reconcile_removal_is_conflict (icr1 kubeOk) (podA ["10.0.0.5/24"]) (podA []) releaserOk []
    (by simp [podA]) rfl

/-- C16 (conflict attribution): whenever `Reconcile` returns a conflict error,
`old` is present, no call was made, and the error names the key
`namespace/name` of the effective claim (`new` when present, `old` otherwise),
the list `old.Status.IPs`, and the list of `new` (no addresses when `new` is
absent or empty). -/
theorem Reconcile_conflict_attribution (icr : IPAMClaimReconciler)
    (old new : Option IPAMClaim) (rel : IPReleaser) (tr tr' : Trace)
    (key : String) (X Y : List String)
    (h : Reconcile icr old new rel tr = .ok (some (conflictError key X Y), tr')) :
    ∃ o, old = some o ∧ tr' = tr ∧
      key = (new.getD o).Namespace ++ "/" ++ (new.getD o).Name ∧
      X = o.Status.IPs ∧
      Y = (new.map (fun n => n.Status.IPs)).getD [] := by
  have hinj : ∀ k A B t, (Except.ok (some (conflictError k A B), t) :
      Except Panic (Option GoError × Trace)) = .ok (some (conflictError key X Y), tr') →
      t = tr' ∧ k = key ∧ A = X ∧ B = Y := by
    intro k A B t heq
    simp only [conflictError, Except.ok.injEq, Prod.mk.injEq, Option.some.injEq,
      GoError.Errorf.injEq, List.cons.injEq, FmtArg.str.injEq, FmtArg.strs.injEq,
      true_and, and_true] at heq
    exact ⟨heq.2, heq.1.1, heq.1.2.1, heq.1.2.2⟩
  cases new with
  | none =>
    cases old with
    | none => simp [Reconcile] at h
    | some o =>
      rw [Reconcile_removed] at h
      by_cases ho : o.Status.IPs = []
      · rw [if_pos ho] at h; simp at h
      · rw [if_neg ho] at h
        obtain ⟨h1, h2, h3, h4⟩ := hinj _ _ _ _ h
        exact ⟨o, rfl, h1.symm, h2.symm, h3.symm, h4.symm⟩
  | some n =>
    by_cases hold : ∀ o, old = some o → o.Status.IPs = []
    · rw [Reconcile_firstCommit icr old n rel tr hold] at h
      cases hk : icr.kube.UpdateIPAMClaimIPs tr (some n) with
      | none => rw [hk] at h; simp at h
      | some err => rw [hk] at h; simp [updateError, conflictError] at h
    · have ⟨o, ho, hne⟩ : ∃ o, old = some o ∧ o.Status.IPs ≠ [] := by
        by_contra hcon
        exact hold (fun o ho => by
          by_contra hne
          exact hcon ⟨o, ho, hne⟩)
      subst ho
      rw [Reconcile_steady icr o n rel tr hne] at h
      by_cases hp : o.Status.IPs.Perm n.Status.IPs
      · rw [if_pos hp] at h; simp at h
      · rw [if_neg hp] at h
        obtain ⟨h1, h2, h3, h4⟩ := hinj _ _ _ _ h
        exact ⟨o, rfl, h1.symm, h2.symm, h3.symm, h4.symm⟩

/-- C16 on old `ns1/pod-a` with `["10.0.0.5/24"]` against new `ns1/pod-a` with
`["10.0.0.9/24"]`. -/
theorem Reconcile_conflict_attribution_witness :
    ∃ o, some (podA ["10.0.0.5/24"]) = some o ∧ ([] : Trace) = [] ∧
      "ns1/pod-a" = ((some (podA ["10.0.0.9/24"])).getD o).Namespace ++ "/" ++
        ((some (podA ["10.0.0.9/24"])).getD o).Name ∧
      ["10.0.0.5/24"] = o.Status.IPs ∧
      ["10.0.0.9/24"] =
        ((some (podA ["10.0.0.9/24"])).map (fun n => n.Status.IPs)).getD [] :=
  Reconcile_conflict_attribution (icr1 kubeOk) (some (podA ["10.0.0.5/24"]))
    (some (podA ["10.0.0.9/24"])) releaserOk [] [] "ns1/pod-a" ["10.0.0.5/24"]
    ["10.0.0.9/24"] (by
      rw [Reconcile_steady _ _ _ _ _ (by simp [podA])]
      have hp : ¬ (podA ["10.0.0.5/24"]).Status.IPs.Perm (podA ["10.0.0.9/24"]).Status.IPs := by
        simp [podA]
      rw [if_neg hp]
      rfl)

/-- C17 (nothing to reconcile): with `old` and `new` both absent, `Reconcile`
returns no error and makes no call, for every releaser. -/
theorem Reconcile_nothing_to_reconcile (icr : IPAMClaimReconciler) (rel : IPReleaser)
    (tr : Trace) :
    Reconcile icr none none rel tr = .ok (none, tr) := by
  rfl

/-- C18 (unrecognized objects are skipped): two collections with the same
`*IPAMClaim` elements in the same order, whatever other objects stand between
them, give the same result of `Sync` and the same calls; a collection of
unrecognized objects only gives no error and no call. -/
theorem Sync_skips_unrecognized (P : String → Except GoError IPNet)
    (IsErrAllocated : GoError → Bool) (icr : IPAMClaimReconciler) (objs1 objs2 : List Obj)
    (typeNames : List String) (ipAllocator : IPAllocator) (tr : Trace)
    (h : recognized objs1 = recognized objs2) :
    Sync P IsErrAllocated icr objs1 ipAllocator tr =
      Sync P IsErrAllocated icr objs2 ipAllocator tr ∧
    Sync P IsErrAllocated icr (typeNames.map Obj.other) ipAllocator tr = (none, tr) := by
  constructor
  · unfold Sync
    rw [Sync_loop_recognized P icr objs1, Sync_loop_recognized P icr objs2, h]
  · have hrec : recognized (typeNames.map Obj.other) = [] := by
      induction typeNames with
      | nil => rfl
      | cons t rest ih => simp [recognized]
    unfold Sync
    rw [Sync_loop_recognized P icr, hrec]
    simp [Sync.loop]

/-- C18 on the scenario of C10 with two objects of other types put in. -/
theorem Sync_skips_unrecognized_witness :
    Sync exampleParseIPNet exampleIsErrAllocated (icr1 kubeOk)
        [Obj.other "*v1.Pod", Obj.ipamClaim (claimOn "pod-a" "net1" ["10.0.0.5/24"]),
         Obj.other "string", Obj.ipamClaim (claimOn "pod-b" "net1" ["bad"])]
        allocatorOk [] =
      Sync exampleParseIPNet exampleIsErrAllocated (icr1 kubeOk)
        [Obj.ipamClaim (claimOn "pod-a" "net1" ["10.0.0.5/24"]),
         Obj.ipamClaim (claimOn "pod-b" "net1" ["bad"])]
        allocatorOk [] ∧
    Sync exampleParseIPNet exampleIsErrAllocated (icr1 kubeOk)
        (["*v1.Pod", "string"].map Obj.other) allocatorOk [] = (none, []) :=
  Sync_skips_unrecognized exampleParseIPNet exampleIsErrAllocated (icr1 kubeOk) _ _
    ["*v1.Pod", "string"] allocatorOk [] rfl

/-- C19 (nil safety): `Reconcile` returns for every combination of absent and
present claims, so no field is read through an absent claim. With `old`
absent it has returned before the read of `old.Status.IPs` on the steady-state
path: at once when `new` is absent too, and from the first-commit branch,
after the one write, when `new` is present. -/
theorem Reconcile_nil_safe (icr : IPAMClaimReconciler) (old new : Option IPAMClaim)
    (rel : IPReleaser) (tr : Trace) (n : IPAMClaim) :
    (∃ r, Reconcile icr old new rel tr = .ok r) ∧
    Reconcile icr none none rel tr = .ok (none, tr) ∧
    (∃ e, Reconcile icr none (some n) rel tr =
      .ok (e, tr ++ [Call.UpdateIPAMClaimIPs (some n)])) := by
  refine ⟨?_, rfl, ?_⟩
  · rcases Reconcile_cases icr old new rel with ⟨_, e, h⟩ | ⟨_, _, _, h⟩
    · exact ⟨_, h tr⟩
    · obtain ⟨e, he⟩ := h tr
      exact ⟨_, he⟩
  · rw [Reconcile_firstCommit icr none n rel tr (fun o ho => by cases ho)]
    cases icr.kube.UpdateIPAMClaimIPs tr (some n) with
    | none => exact ⟨none, rfl⟩
    | some err => exact ⟨_, rfl⟩

/-- C20 (other networks do not interfere): deleting from the collection all
claims whose `Spec.Network` differs from the network name of the reconciler
changes neither the result of `Sync` nor the calls it makes, whatever the
address strings of those claims are; the claims on the network stay the
same. -/
theorem Sync_other_networks_ignored (P : String → Except GoError IPNet)
    (IsErrAllocated : GoError → Bool) (icr : IPAMClaimReconciler) (objs : List Obj)
    (ipAllocator : IPAllocator) (tr : Trace) :
    Sync P IsErrAllocated icr (dropOtherNetworks icr objs) ipAllocator tr =
      Sync P IsErrAllocated icr objs ipAllocator tr ∧
    claimsOnNetwork icr (dropOtherNetworks icr objs) = claimsOnNetwork icr objs := by
  constructor
  · unfold Sync
    rw [Sync_loop_dropOtherNetworks]
  · induction objs with
    | nil => rfl
    | cons obj rest ih =>
      cases obj with
      | other t => simpa [dropOtherNetworks, claimsOnNetwork] using ih
      | ipamClaim c =>
        by_cases hn : c.Spec.Network = icr.netInfo.GetNetworkName
        · simpa [dropOtherNetworks, claimsOnNetwork, hn] using ih
        · simpa [dropOtherNetworks, claimsOnNetwork, hn] using ih

end Persistentips

namespace EgressFirewallV1

/-- With values that are all present, `WithEgress` returns the receiver with
the values appended to its `Egress` list. -/
theorem WithEgress_some {Rule : Type} (b : EgressFirewallSpecApplyConfiguration Rule)
    (vs : List Rule) :
    WithEgress b (vs.map some) = .ok { Egress := b.Egress ++ vs } := by
  induction vs generalizing b with
  | nil => simp [WithEgress]
  | cons v rest ih =>
    simp only [List.map_cons, WithEgress]
    rw [ih]
    simp

/-- C14 (`WithEgress` appends): with non-nil values `vs`, `WithEgress` returns
the receiver with `Egress` extended by `vs`, the entries already there and the
order kept; two calls in a row, with `xs` and then `ys`, give what one call
with `xs ++ ys` gives; and a call without values leaves the receiver as it
is. -/
theorem WithEgress_appends {Rule : Type} (b : EgressFirewallSpecApplyConfiguration Rule)
    (vs xs ys : List Rule) :
    WithEgress b (vs.map some) = .ok { Egress := b.Egress ++ vs } ∧
    (WithEgress b (xs.map some) >>= fun b' => WithEgress b' (ys.map some)) =
      WithEgress b ((xs ++ ys).map some) ∧
    WithEgress b [] = .ok b := by
  refine ⟨WithEgress_some b vs, ?_, rfl⟩
  rw [WithEgress_some b xs, WithEgress_some b (xs ++ ys)]
  show WithEgress _ (ys.map some) = _
  rw [WithEgress_some]
  simp

end EgressFirewallV1
